import Mathlib

/-!
Verification of the plan10 remote execution and deployment layer.

The Rust sources under plan10-cli/src are shallowly embedded: the
configuration / server-registry model from config.rs, the SSH session
primitives from ssh.rs, and the deployment planner / executor from
commands/client/deploy.rs.  Machine integers are modelled as Nat
(u16 ports, u8 levels); the f32 temperature threshold is modelled as a
rational number, on which the two comparisons of validate coincide with
the float comparisons for ordinary finite values.  The Rust HashMap of
servers is modelled as an association list whose order stands for the
iteration order of the map; fallible Rust functions returning
anyhow::Result are modelled with Except String, carrying the context or
bail message of the source.  Effectful SSH and filesystem operations are
modelled by explicit environment records whose fields stand for the
outcomes of the corresponding libssh2 / std::fs calls.
-/

namespace Plan10

/-- ServerDefinition from config.rs: one remote target.  The port is a
Rust u16, modelled as Nat; last_seen timestamps are opaque Nat values. -/
structure ServerDefinition where
  name : String
  host : String
  user : String
  port : Nat
  ssh_key : Option String
  tags : List String
  enabled : Bool
  last_seen : Option Nat
  deriving Repr, DecidableEq

/-- ClientConfig from config.rs. -/
structure ClientConfig where
  default_server : Option String
  deployment_timeout : Nat
  concurrent_operations : Nat
  auto_backup : Bool
  deriving Repr, DecidableEq

/-- ServerConfig from config.rs; temp_threshold is f32 in the source,
modelled as a rational number. -/
structure ServerConfig where
  name : String
  monitoring_interval : Nat
  temp_threshold : ℚ
  battery_warning_level : Nat
  auto_restart_services : Bool
  log_level : String
  services : List String
  deriving Repr, DecidableEq

/-- SshConfig from config.rs. -/
structure SshConfig where
  connect_timeout : Nat
  command_timeout : Nat
  key_path : Option String
  known_hosts_file : Option String
  compression : Bool
  keep_alive : Bool
  deriving Repr, DecidableEq

/-- Config from config.rs.  The servers HashMap is modelled as an
association list; its order stands for the iteration order of the map. -/
structure Config where
  client : ClientConfig
  server : ServerConfig
  servers : List (String × ServerDefinition)
  ssh : SshConfig
  deriving Repr, DecidableEq

/-- HashMap::get on the modelled servers map: the value stored under the
given key. -/
def serversGet (servers : List (String × ServerDefinition)) (k : String) :
    Option ServerDefinition :=
  (servers.find? (fun p => p.1 == k)).map Prod.snd

/-- HashMap::contains_key on the modelled servers map. -/
def containsKey (servers : List (String × ServerDefinition)) (k : String) : Bool :=
  (serversGet servers k).isSome

/-- Config::resolve_server from config.rs: exact key match first, then the
first value (in iteration order) whose host equals the identifier. -/
def Config.resolve_server (c : Config) (name_or_host : String) :
    Option ServerDefinition :=
  match serversGet c.servers name_or_host with
  | some server => some server
  | none => (c.servers.map Prod.snd).find? (fun server => server.host == name_or_host)

/-- Config::add_server from config.rs: bails when the name is already a
key, otherwise inserts under the definition's own name. -/
def Config.add_server (c : Config) (server : ServerDefinition) :
    Except String Config :=
  if containsKey c.servers server.name then
    .error ("Server \x27" ++ server.name ++ "\x27 already exists")
  else
    .ok { c with servers := c.servers ++ [(server.name, server)] }

/-- Config::remove_server from config.rs, with the &mut self mutation made
explicit: the returned pair is (result, final configuration).  On a missing
name it bails and leaves the configuration untouched; on success it deletes
the entry and clears client.default_server when it referenced the removed
name. -/
def Config.remove_server (c : Config) (name : String) :
    Except String Unit × Config :=
  if containsKey c.servers name then
    let c1 := { c with servers := c.servers.filter (fun p => !(p.1 == name)) }
    let c2 :=
      if c1.client.default_server == some name then
        { c1 with client := { c1.client with default_server := none } }
      else c1
    (.ok (), c2)
  else
    (.error ("Server \x27" ++ name ++ "\x27 not found"), c)

/-- Config::get_server from config.rs. -/
def Config.get_server (c : Config) (name : String) : Option ServerDefinition :=
  serversGet c.servers name

/-- Config::get_default_server from config.rs: follow the optional
default_server reference into the servers map. -/
def Config.get_default_server (c : Config) : Option ServerDefinition :=
  c.client.default_server.bind (fun name => serversGet c.servers name)

/-- The per-server loop of Config::validate, over the modelled map in
iteration order, bailing at the first offending entry. -/
def validateServers : List (String × ServerDefinition) → Except String Unit
  | [] => .ok ()
  | (name, server) :: rest =>
    if server.name ≠ name then
      .error ("Server name mismatch: key \x27" ++ name ++ "\x27 vs name \x27" ++
        server.name ++ "\x27")
    else if server.host = "" then
      .error ("Server \x27" ++ name ++ "\x27 has empty host")
    else if server.user = "" then
      .error ("Server \x27" ++ name ++ "\x27 has empty user")
    else if server.port = 0 ∨ server.port > 65535 then
      .error ("Server \x27" ++ name ++ "\x27 has invalid port")
    else validateServers rest

/-- The default-server check of Config::validate: when a default-server
reference is set it must name an existing key. -/
def validateDefault (c : Config) : Except String Unit :=
  match c.client.default_server with
  | some default_server =>
    if containsKey c.servers default_server then .ok ()
    else .error ("Default server \x27" ++ default_server ++ "\x27 not found in servers list")
  | none => .ok ()

/-- Config::validate from config.rs: per-server checks, then the
default-server reference, then the global thresholds, bailing at the
first failure as the ? operator does in the source. -/
def Config.validate (c : Config) : Except String Unit :=
  match validateServers c.servers with
  | .error e => .error e
  | .ok _ =>
    match validateDefault c with
    | .error e => .error e
    | .ok _ =>
      if c.server.temp_threshold < 0 ∨ c.server.temp_threshold > 150 then
        .error "Invalid temperature threshold"
      else if c.server.battery_warning_level > 100 then
        .error "Invalid battery warning level"
      else .ok ()

/-- Per-entry well-formedness checked by the loop of Config::validate. -/
def serverEntryOK (p : String × ServerDefinition) : Prop :=
  p.2.name = p.1 ∧ p.2.host ≠ "" ∧ p.2.user ≠ "" ∧ p.2.port ≠ 0 ∧ p.2.port ≤ 65535

instance (p : String × ServerDefinition) : Decidable (serverEntryOK p) := by
  unfold serverEntryOK; infer_instance

/-- CommandResult from ssh.rs: the immutable record of one remote command
execution. -/
structure CommandResult where
  stdout : String
  stderr : String
  exit_code : Int
  success : Bool
  deriving Repr, DecidableEq

/-- Outcomes of the individual libssh2 calls made by
SshClient::execute_command, in the order the source issues them: channel
construction, exec, the two output reads, wait_close and exit_status.
Each field is the result the corresponding call would return; an error
stands for a transport or protocol failure. -/
structure ExecEnv where
  channelSession : Except String Unit
  exec : String → Except String Unit
  readStdout : Except String String
  readStderr : Except String String
  waitClose : Except String Unit
  exitStatus : Except String Int

/-- SshClient::execute_command from ssh.rs: every ? operator of the source
is a match that propagates the error; on success the CommandResult is
assembled with success derived as exit status == 0. -/
def execute_command (env : ExecEnv) (command : String) : Except String CommandResult :=
  match env.channelSession with
  | .error e => .error e
  | .ok _ =>
    match env.exec command with
    | .error e => .error e
    | .ok _ =>
      match env.readStdout with
      | .error e => .error e
      | .ok stdout =>
        match env.readStderr with
        | .error e => .error e
        | .ok stderr =>
          match env.waitClose with
          | .error e => .error e
          | .ok _ =>
            match env.exitStatus with
            | .error e => .error e
            | .ok exit_status =>
              .ok { stdout := stdout, stderr := stderr,
                    exit_code := exit_status, success := exit_status == 0 }

/-- SshClient::execute_command_with_timeout from ssh.rs: the source
discards the timeout argument and delegates to execute_command. -/
def execute_command_with_timeout (env : ExecEnv) (command : String)
    (_timeout_secs : Nat) : Except String CommandResult :=
  execute_command env command

/-- A whole SshClient::execute_command call viewed as an oracle, the
granularity at which file_exists and directory_exists use it. -/
structure CmdRunner where
  run : String → Except String CommandResult

/-- SshClient::file_exists from ssh.rs: the remote predicate test -f,
with result.map(success).unwrap_or(false) made explicit. -/
def file_exists (rn : CmdRunner) (remote_path : String) : Except String Bool :=
  match rn.run ("test -f " ++ remote_path) with
  | .ok r => .ok r.success
  | .error _ => .ok false

/-- SshClient::directory_exists from ssh.rs: the remote predicate test -d,
with result.map(success).unwrap_or(false) made explicit. -/
def directory_exists (rn : CmdRunner) (remote_path : String) : Except String Bool :=
  match rn.run ("test -d " ++ remote_path) with
  | .ok r => .ok r.success
  | .error _ => .ok false

/-- Environment of the authentication phase of SshClient::connect: tilde
expansion, local key-file existence, and the two libssh2 authentication
calls.  Each authentication call either fails with a transport error or
completes, returning the value session.authenticated() would then have. -/
structure AuthEnv where
  expand : String → String
  fileExists : String → Bool
  pubkeyAuth : String → String → Except String Bool
  agentAuth : String → Except String Bool

/-- The authentication phase of SshClient::connect from ssh.rs, after the
TCP connect and handshake: key authentication is attempted only when a
key path is configured (per-target first, else global) and the expanded
path exists on disk; a failing userauth_pubkey_file call propagates with
its context message; then, when the session is still unauthenticated, the
agent is tried, a failing call propagating likewise; a session that is
still unauthenticated after both steps bails with the message naming user
and host. -/
def connectAuth (server : ServerDefinition) (ssh : SshConfig) (env : AuthEnv) :
    Except String Unit :=
  let keyStep : Except String Bool :=
    match server.ssh_key.or ssh.key_path with
    | some key_path =>
      let kp := env.expand key_path
      if env.fileExists kp then
        match env.pubkeyAuth server.user kp with
        | .error _ => .error "SSH key authentication failed"
        | .ok authed => .ok authed
      else .ok false
    | none => .ok false
  match keyStep with
  | .error e => .error e
  | .ok authed =>
    if !authed then
      match env.agentAuth server.user with
      | .error _ => .error "SSH agent authentication failed"
      | .ok authed2 =>
        if !authed2 then
          .error ("Authentication failed for user " ++ server.user ++ " on " ++
            server.host)
        else .ok ()
    else .ok ()

/-- The agent-then-bail tail of the connect authentication, entered with
an unauthenticated session; used to state what connect does when the key
step was skipped or left the session unauthenticated. -/
def agentPhase (server : ServerDefinition) (env : AuthEnv) : Except String Unit :=
  match env.agentAuth server.user with
  | .error _ => .error "SSH agent authentication failed"
  | .ok authed =>
    if !authed then
      .error ("Authentication failed for user " ++ server.user ++ " on " ++
        server.host)
    else .ok ()

/-- Kind of a local filesystem entry, distinguishing Path::is_dir. -/
inductive FileKind where
  | file
  | dir
  deriving Repr, DecidableEq

/-- Observable actions of a deployment run: the warning printed for a
missing local source, a file or directory transfer, and a remote command. -/
inductive DeployEvent where
  | warned (msg : String)
  | copiedFile (local_path remote_path : String)
  | copiedDir (local_path remote_path : String)
  | ran (cmd : String)
  deriving Repr, DecidableEq

/-- Environment of the deployment executor: the SshClient transfer
primitives and execute_command, each completing or failing with a
transport error.  copyDir stands for SshClient::copy_directory as a
whole. -/
structure RemoteEnv where
  copyFile : String → String → Except String Unit
  copyDir : String → String → Except String Unit
  execCmd : String → Except String CommandResult

/-- Path::file_name of a slash-separated path: its last component. -/
def fileNameOf (p : String) : String :=
  ((p.splitOn "/").getLast?).getD p

/-- Path::parent of a slash-separated path: none for the empty path,
otherwise everything before the last component (possibly empty, as
Path::parent of a single component is Some of the empty path). -/
def parentDirOf (p : String) : Option String :=
  if p = "" then none
  else some (String.intercalate "/" ((p.splitOn "/").dropLast))

/-- determine_deployment_items from deploy.rs: the static manifest chosen
by the three mode flags, with the all/default branch first. -/
def determine_deployment_items (all scripts_only config_only : Bool) :
    Except String (List (String × List (String × String))) :=
  if all || (!scripts_only && !config_only) then
    .ok [("server-setup", [("server_setup.sh", "~/server_setup.sh")]),
         ("scripts",
           [("scripts/temp", "~/scripts/temp"),
            ("scripts/battery", "~/scripts/battery"),
            ("scripts/power_diagnostics", "~/scripts/power_diagnostics"),
            ("scripts/setup_aliases.sh", "~/scripts/setup_aliases.sh")]),
         ("configs", [("caffeinate.plist", "~/Library/LaunchAgents/caffeinate.plist")]),
         ("services", [("docs/", "~/docs/")])]
  else if scripts_only then
    .ok [("scripts",
           [("scripts/temp", "~/scripts/temp"),
            ("scripts/battery", "~/scripts/battery"),
            ("scripts/power_diagnostics", "~/scripts/power_diagnostics"),
            ("scripts/setup_aliases.sh", "~/scripts/setup_aliases.sh")])]
  else if config_only then
    .ok [("configs",
           [("caffeinate.plist", "~/Library/LaunchAgents/caffeinate.plist"),
            ("server_setup.sh", "~/server_setup.sh")])]
  else .ok []

/-- deploy_server_setup from deploy.rs: bails when server_setup.sh is
absent locally, otherwise copies it and marks it executable. -/
def deploy_server_setup (env : RemoteEnv) (fs : String → Option FileKind) :
    Except String (List DeployEvent) :=
  if (fs "server_setup.sh").isNone then
    .error "server_setup.sh not found in current directory"
  else
    match env.copyFile "server_setup.sh" "~/server_setup.sh" with
    | .error e => .error e
    | .ok _ =>
      match env.execCmd "chmod +x ~/server_setup.sh" with
      | .error e => .error e
      | .ok _ =>
        .ok [.copiedFile "server_setup.sh" "~/server_setup.sh",
             .ran "chmod +x ~/server_setup.sh"]

/-- The per-pair loop of deploy_scripts from deploy.rs: a missing local
source is warned about and skipped, a present one is copied and, unless
named setup_aliases.sh, marked executable; transfer and command errors
propagate. -/
def deployScriptsLoop (env : RemoteEnv) (fs : String → Option FileKind) :
    List (String × String) → Except String (List DeployEvent)
  | [] => .ok []
  | (local_path, remote_path) :: rest =>
    if (fs local_path).isNone then
      match deployScriptsLoop env fs rest with
      | .error e => .error e
      | .ok tr => .ok (.warned ("Local file not found: " ++ local_path) :: tr)
    else
      match env.copyFile local_path remote_path with
      | .error e => .error e
      | .ok _ =>
        if fileNameOf local_path ≠ "setup_aliases.sh" then
          match env.execCmd ("chmod +x " ++ remote_path) with
          | .error e => .error e
          | .ok _ =>
            match deployScriptsLoop env fs rest with
            | .error e => .error e
            | .ok tr =>
              .ok (.copiedFile local_path remote_path ::
                   .ran ("chmod +x " ++ remote_path) :: tr)
        else
          match deployScriptsLoop env fs rest with
          | .error e => .error e
          | .ok tr => .ok (.copiedFile local_path remote_path :: tr)

/-- deploy_scripts from deploy.rs: ensure_directory on ~/scripts, then the
per-pair loop. -/
def deploy_scripts (env : RemoteEnv) (fs : String → Option FileKind)
    (files : List (String × String)) : Except String (List DeployEvent) :=
  match env.execCmd "mkdir -p ~/scripts" with
  | .error e => .error e
  | .ok _ =>
    match deployScriptsLoop env fs files with
    | .error e => .error e
    | .ok tr => .ok (.ran "mkdir -p ~/scripts" :: tr)

/-- deploy_configs from deploy.rs: a missing local source is warned about
and skipped; otherwise the remote parent directory is created when the
remote path has one, and the file is copied. -/
def deploy_configs (env : RemoteEnv) (fs : String → Option FileKind) :
    List (String × String) → Except String (List DeployEvent)
  | [] => .ok []
  | (local_path, remote_path) :: rest =>
    if (fs local_path).isNone then
      match deploy_configs env fs rest with
      | .error e => .error e
      | .ok tr => .ok (.warned ("Local file not found: " ++ local_path) :: tr)
    else
      match parentDirOf remote_path with
      | some parent =>
        match env.execCmd ("mkdir -p " ++ parent) with
        | .error e => .error e
        | .ok _ =>
          match env.copyFile local_path remote_path with
          | .error e => .error e
          | .ok _ =>
            match deploy_configs env fs rest with
            | .error e => .error e
            | .ok tr =>
              .ok (.ran ("mkdir -p " ++ parent) ::
                   .copiedFile local_path remote_path :: tr)
      | none =>
        match env.copyFile local_path remote_path with
        | .error e => .error e
        | .ok _ =>
          match deploy_configs env fs rest with
          | .error e => .error e
          | .ok tr => .ok (.copiedFile local_path remote_path :: tr)

/-- deploy_services from deploy.rs: a missing local source is warned
about and skipped; a directory is transferred with copy_directory, a file
with copy_file. -/
def deploy_services (env : RemoteEnv) (fs : String → Option FileKind) :
    List (String × String) → Except String (List DeployEvent)
  | [] => .ok []
  | (local_path, remote_path) :: rest =>
    if (fs local_path).isNone then
      match deploy_services env fs rest with
      | .error e => .error e
      | .ok tr => .ok (.warned ("Local path not found: " ++ local_path) :: tr)
    else
      if fs local_path = some FileKind.dir then
        match env.copyDir local_path remote_path with
        | .error e => .error e
        | .ok _ =>
          match deploy_services env fs rest with
          | .error e => .error e
          | .ok tr => .ok (.copiedDir local_path remote_path :: tr)
      else
        match env.copyFile local_path remote_path with
        | .error e => .error e
        | .ok _ =>
          match deploy_services env fs rest with
          | .error e => .error e
          | .ok tr => .ok (.copiedFile local_path remote_path :: tr)

/-- The category dispatch loop of execute_deploy from deploy.rs: each
planned category is executed in order by its name, an unknown category is
skipped, and any category error aborts the remaining plan as the ?
operator does in the source. -/
def run_deployment (env : RemoteEnv) (fs : String → Option FileKind) :
    List (String × List (String × String)) → Except String (List DeployEvent)
  | [] => .ok []
  | (category, files) :: rest =>
    let step : Except String (List DeployEvent) :=
      match category with
      | "server-setup" => deploy_server_setup env fs
      | "scripts" => deploy_scripts env fs files
      | "configs" => deploy_configs env fs files
      | "services" => deploy_services env fs files
      | _ => .ok []
    match step with
    | .error e => .error e
    | .ok tr =>
      match run_deployment env fs rest with
      | .error e => .error e
      | .ok tr2 => .ok (tr ++ tr2)

/-- ClientConfig of Config::default from config.rs. -/
def baseClient : ClientConfig :=
  { default_server := none, deployment_timeout := 300,
    concurrent_operations := 4, auto_backup := true }

/-- ServerConfig of Config::default from config.rs, with the hostname
fixed to a constant. -/
def baseServerCfg : ServerConfig :=
  { name := "plan10-host", monitoring_interval := 30, temp_threshold := 80,
    battery_warning_level := 20, auto_restart_services := true,
    log_level := "info", services := ["caffeinate", "plan10-monitor"] }

/-- SshConfig of Config::default from config.rs. -/
def baseSsh : SshConfig :=
  { connect_timeout := 30, command_timeout := 60, key_path := none,
    known_hosts_file := none, compression := true, keep_alive := true }

/-- Config::default from config.rs with a fixed hostname: the empty
registry with the default global settings. -/
def cfgBase : Config :=
  { client := baseClient, server := baseServerCfg, servers := [], ssh := baseSsh }

/-- A well-formed sample server definition. -/
def srvA : ServerDefinition :=
  { name := "a", host := "10.0.0.5", user := "ops", port := 22,
    ssh_key := none, tags := [], enabled := true, last_seen := none }

/-- A second well-formed sample server definition. -/
def srvB : ServerDefinition :=
  { name := "b", host := "10.0.0.6", user := "ops", port := 22,
    ssh_key := none, tags := [], enabled := true, last_seen := none }

/-- A server definition with an empty host, insertable by add_server yet
rejected by validate. -/
def badHostServer : ServerDefinition :=
  { name := "alpha", host := "", user := "ops", port := 22,
    ssh_key := none, tags := [], enabled := true, last_seen := none }

/-- Registry with two servers whose default-server reference names a. -/
def cfgAB : Config :=
  { cfgBase with
    servers := [("a", srvA), ("b", srvB)],
    client := { baseClient with default_server := some "a" } }

/-- Configuration whose default-server reference names a missing key. -/
def cfgDangling : Config :=
  { cfgBase with client := { baseClient with default_server := some "ghost" } }

/-- Transport environment in which every SSH operation succeeds and every
remote command exits with status 0. -/
def okRemoteEnv : RemoteEnv :=
  { copyFile := fun _ _ => .ok (), copyDir := fun _ _ => .ok (),
    execCmd := fun _ =>
      .ok { stdout := "", stderr := "", exit_code := 0, success := true } }

/-- Local filesystem on which every path exists as a file except
server_setup.sh. -/
def fsAllButServerSetup : String → Option FileKind :=
  fun p => if p = "server_setup.sh" then none else some FileKind.file

/-- Command oracle whose transport always fails. -/
def failingRunner : CmdRunner :=
  { run := fun _ => .error "connection reset by peer" }

/-- Command oracle whose commands complete with a failing exit status. -/
def exitOneRunner : CmdRunner :=
  { run := fun _ =>
      .ok { stdout := "", stderr := "", exit_code := 1, success := false } }

/-- Authentication environment with no usable key file and a dead agent. -/
def agentFailEnv : AuthEnv :=
  { expand := id, fileExists := fun _ => false,
    pubkeyAuth := fun _ _ => .ok false,
    agentAuth := fun _ => .error "no agent available" }

/-- Authentication environment in which no configured key path exists on
disk and agent authentication succeeds. -/
def agentOkEnv : AuthEnv :=
  { expand := id, fileExists := fun _ => false,
    pubkeyAuth := fun _ _ => .ok false,
    agentAuth := fun _ => .ok true }

/-- A server definition carrying a per-target key path. -/
def srvWithKey : ServerDefinition :=
  { name := "mac1", host := "10.0.0.5", user := "ops", port := 22,
    ssh_key := some "~/.ssh/id_ed25519", tags := [], enabled := true,
    last_seen := none }

/-- Command environment whose remote command exits with status 3. -/
def execEnvNonzero : ExecEnv :=
  { channelSession := .ok (), exec := fun _ => .ok (),
    readStdout := .ok "out", readStderr := .ok "boom",
    waitClose := .ok (), exitStatus := .ok 3 }

/-- The all/default deployment plan of determine_deployment_items. -/
def allModeItems : List (String × List (String × String)) :=
  [("server-setup", [("server_setup.sh", "~/server_setup.sh")]),
   ("scripts",
     [("scripts/temp", "~/scripts/temp"),
      ("scripts/battery", "~/scripts/battery"),
      ("scripts/power_diagnostics", "~/scripts/power_diagnostics"),
      ("scripts/setup_aliases.sh", "~/scripts/setup_aliases.sh")]),
   ("configs", [("caffeinate.plist", "~/Library/LaunchAgents/caffeinate.plist")]),
   ("services", [("docs/", "~/docs/")])]

/-- First-match characterization of List.find?: either no element
satisfies the predicate and the result is none, or the list splits as
pre ++ a :: post where a is the first satisfying element. -/
theorem find?_first_match {α : Type} (p : α → Bool) (l : List α) :
    (l.find? p = none ∧ ∀ a ∈ l, p a = false) ∨
    (∃ pre a post, l = pre ++ a :: post ∧ p a = true ∧
      l.find? p = some a ∧ ∀ b ∈ pre, p b = false) := by
  induction l with
  | nil => left; simp
  | cons x xs ih =>
    by_cases hx : p x = true
    · right
      exact ⟨[], x, xs, by simp, hx, by simp [List.find?, hx], by simp⟩
    · have hx' : p x = false := by
        cases h : p x
        · rfl
        · exact absurd h hx
      rcases ih with ⟨hnone, hall⟩ | ⟨pre, a, post, hsplit, hpa, hfind, hpre⟩
      · left
        refine ⟨by simp [List.find?, hx', hnone], ?_⟩
        intro a ha
        rcases List.mem_cons.mp ha with rfl | ha'
        · exact hx'
        · exact hall a ha'
      · right
        refine ⟨x :: pre, a, post, by simp [hsplit], hpa,
          by simp [List.find?, hx', hfind], ?_⟩
        intro b hb
        rcases List.mem_cons.mp hb with rfl | hb'
        · exact hx'
        · exact hpre b hb'

/-- The per-server loop succeeds exactly when every entry passes all four
field checks; the bail-at-first-error order does not affect success. -/
theorem validateServers_ok_iff (l : List (String × ServerDefinition)) :
    validateServers l = .ok () ↔ ∀ p ∈ l, serverEntryOK p := by
  induction l with
  | nil => simp [validateServers]
  | cons x xs ih =>
    obtain ⟨name, server⟩ := x
    constructor
    · intro h
      by_cases h1 : server.name ≠ name
      · simp [validateServers, h1] at h
      by_cases h2 : server.host = ""
      · simp [validateServers, h1, h2] at h
      by_cases h3 : server.user = ""
      · simp [validateServers, h1, h2, h3] at h
      by_cases h4 : server.port = 0 ∨ server.port > 65535
      · simp [validateServers, h1, h2, h3, h4] at h
      · have hrest : validateServers xs = .ok () := by
          simpa [validateServers, h1, h2, h3, h4] using h
        push_neg at h4
        intro p hp
        rcases List.mem_cons.mp hp with rfl | hp'
        · exact ⟨by simpa using h1, h2, h3, h4.1, h4.2⟩
        · exact (ih.mp hrest) p hp'
    · intro h
      obtain ⟨h1, h2, h3, h4, h5⟩ := h (name, server) (List.mem_cons_self _ _)
      have h1' : server.name = name := h1
      have h2' : server.host ≠ "" := h2
      have h3' : server.user ≠ "" := h3
      have h4' : server.port ≠ 0 := h4
      have h5' : server.port ≤ 65535 := h5
      have hrest : validateServers xs = .ok () :=
        ih.mpr (fun p hp => h p (List.mem_cons_of_mem _ hp))
      simp only [validateServers]
      rw [if_neg (by simpa using h1'), if_neg h2', if_neg h3',
        if_neg (by push_neg; exact ⟨h4', by omega⟩)]
      exact hrest

/-- Config::validate succeeds exactly when every server entry is
well-formed, the default-server reference (when set) has a matching key,
and the global thresholds are in range. -/
theorem validate_ok_iff (c : Config) :
    c.validate = .ok () ↔
      ((∀ p ∈ c.servers, serverEntryOK p) ∧
       (∀ d, c.client.default_server = some d → containsKey c.servers d = true) ∧
       0 ≤ c.server.temp_threshold ∧ c.server.temp_threshold ≤ 150 ∧
       c.server.battery_warning_level ≤ 100) := by
  unfold Config.validate
  rcases hv : validateServers c.servers with e | u
  · constructor
    · intro h; exact absurd h (by simp)
    · rintro ⟨hs, -⟩
      exact absurd ((validateServers_ok_iff c.servers).mpr hs) (by simp [hv])
  · obtain ⟨⟩ := u
    have hs := (validateServers_ok_iff c.servers).mp hv
    rcases hw : validateDefault c with e | u
    · constructor
      · intro h; exact absurd h (by simp)
      · rintro ⟨-, hdef, -⟩
        unfold validateDefault at hw
        rcases hd : c.client.default_server with _ | d
        · rw [hd] at hw; exact absurd hw (by simp)
        · rw [hd] at hw
          dsimp only at hw
          rw [if_pos (hdef d hd)] at hw
          exact absurd hw (by simp)
    · obtain ⟨⟩ := u
      have hdef : ∀ d, c.client.default_server = some d →
          containsKey c.servers d = true := by
        intro d hd
        unfold validateDefault at hw
        rw [hd] at hw
        dsimp only at hw
        by_contra hk
        rw [if_neg hk] at hw
        exact absurd hw (by simp)
      dsimp only
      by_cases ht : c.server.temp_threshold < 0 ∨ c.server.temp_threshold > 150
      · rw [if_pos ht]
        constructor
        · intro h; exact absurd h (by simp)
        · rintro ⟨-, -, ht0, ht1, -⟩
          rcases ht with ht | ht
          · exact absurd ht0 (not_le.mpr ht)
          · exact absurd ht1 (not_le.mpr ht)
      · push_neg at ht
        rw [if_neg (by push_neg; exact ht)]
        by_cases hb : c.server.battery_warning_level > 100
        · rw [if_pos hb]
          constructor
          · intro h; exact absurd h (by simp)
          · rintro ⟨-, -, -, -, hb'⟩; omega
        · rw [if_neg hb]
          exact ⟨fun _ => ⟨hs, hdef, ht.1, ht.2, by omega⟩, fun _ => rfl⟩

/-- Lookup of the removed key in the filtered map yields nothing. -/
theorem serversGet_filter_self (l : List (String × ServerDefinition)) (n : String) :
    serversGet (l.filter (fun p => !(p.1 == n))) n = none := by
  induction l with
  | nil => rfl
  | cons x xs ih =>
    by_cases hx : x.1 = n
    · simpa [List.filter, hx] using ih
    · have hx' : (x.1 == n) = false := beq_eq_false_iff_ne.mpr hx
      simp only [List.filter, hx', Bool.not_false, serversGet, List.find?, hx']
      exact ih

/-- Lookup of any other key is unchanged by filtering out one key. -/
theorem serversGet_filter_ne (l : List (String × ServerDefinition)) (n m : String)
    (hmn : m ≠ n) :
    serversGet (l.filter (fun p => !(p.1 == n))) m = serversGet l m := by
  induction l with
  | nil => rfl
  | cons x xs ih =>
    by_cases hx : x.1 = n
    · have hx' : (x.1 == n) = true := beq_iff_eq.mpr hx
      have hxm : (x.1 == m) = false :=
        beq_eq_false_iff_ne.mpr (by rw [hx]; exact fun h => hmn h.symm)
      simp only [List.filter, hx', Bool.not_true]
      rw [ih]
      simp only [serversGet, List.find?, hxm]
    · have hx' : (x.1 == n) = false := beq_eq_false_iff_ne.mpr hx
      by_cases hxm : x.1 = m
      · have hxm' : (x.1 == m) = true := beq_iff_eq.mpr hxm
        simp [List.filter, hx', serversGet, List.find?, hxm']
      · have hxm' : (x.1 == m) = false := beq_eq_false_iff_ne.mpr hxm
        simp only [List.filter, hx', Bool.not_false, serversGet, List.find?, hxm']
        exact ih

/-- C8: remove_server on an absent name reports not-found and leaves the
whole configuration unchanged; removing a present name deletes exactly
that entry (its lookup becomes none, every other lookup is unchanged) and
clears the default-server reference exactly when it named the removed
server, every other field of the configuration being untouched. -/
theorem remove_server_spec (c : Config) (n : String) :
    (containsKey c.servers n = false →
      c.remove_server n = (.error ("Server \x27" ++ n ++ "\x27 not found"), c)) ∧
    (containsKey c.servers n = true →
      ∃ c2, c.remove_server n = (.ok (), c2) ∧
        c2.servers = c.servers.filter (fun p => !(p.1 == n)) ∧
        serversGet c2.servers n = none ∧
        (∀ m, m ≠ n → serversGet c2.servers m = serversGet c.servers m) ∧
        c2.client.default_server =
          (if c.client.default_server = some n then none
           else c.client.default_server) ∧
        c2.server = c.server ∧ c2.ssh = c.ssh ∧
        c2.client.deployment_timeout = c.client.deployment_timeout ∧
        c2.client.concurrent_operations = c.client.concurrent_operations ∧
        c2.client.auto_backup = c.client.auto_backup) := by
  constructor
  · intro h
    simp [Config.remove_server, h]
  · intro h
    by_cases hd : c.client.default_server = some n
    · have hd' : (c.client.default_server == some n) = true := beq_iff_eq.mpr hd
      refine ⟨{ c with servers := c.servers.filter (fun p => !(p.1 == n)),
                       client := { c.client with default_server := none } },
        ?_, rfl, serversGet_filter_self c.servers n,
        fun m hm => serversGet_filter_ne c.servers n m hm,
        by simp [hd], rfl, rfl, rfl, rfl, rfl⟩
      simp only [Config.remove_server, h, if_true, hd']
    · have hd' : (c.client.default_server == some n) = false :=
        beq_eq_false_iff_ne.mpr hd
      refine ⟨{ c with servers := c.servers.filter (fun p => !(p.1 == n)) },
        ?_, rfl, serversGet_filter_self c.servers n,
        fun m hm => serversGet_filter_ne c.servers n m hm,
        by simp [hd], rfl, rfl, rfl, rfl, rfl⟩
      simp only [Config.remove_server, h, if_true, hd']
      simp

/-- C10: get_default_server returns none both when no default-server
reference is set and when the reference names a missing key (in which case
validate also rejects the configuration); when the reference names a
present key the stored definition is returned. -/
theorem get_default_server_spec (c : Config) :
    (c.client.default_server = none → c.get_default_server = none) ∧
    (∀ n, c.client.default_server = some n → serversGet c.servers n = none →
      c.get_default_server = none ∧ c.validate ≠ .ok ()) ∧
    (∀ n d, c.client.default_server = some n → serversGet c.servers n = some d →
      c.get_default_server = some d) := by
  refine ⟨?_, ?_, ?_⟩
  · intro h
    simp [Config.get_default_server, h]
  · intro n hn hget
    refine ⟨by simp [Config.get_default_server, hn, hget], ?_⟩
    intro hok
    obtain ⟨-, hdef, -⟩ := (validate_ok_iff c).mp hok
    have := hdef n hn
    rw [containsKey, hget] at this
    exact absurd this (by simp)
  · intro n d hn hget
    simp [Config.get_default_server, hn, hget]

/-- C1: resolve_server returns the definition stored under the exact key
when one exists, regardless of host collisions elsewhere; otherwise the
first definition in the map's iteration order whose host equals the
identifier; otherwise none. -/
theorem resolve_server_correct (c : Config) (id : String) :
    (∀ d, serversGet c.servers id = some d → c.resolve_server id = some d) ∧
    (serversGet c.servers id = none →
      match c.resolve_server id with
      | some d =>
          ∃ pre post, c.servers.map Prod.snd = pre ++ d :: post ∧
            d.host = id ∧ ∀ b ∈ pre, b.host ≠ id
      | none => ∀ b ∈ c.servers.map Prod.snd, b.host ≠ id) := by
  constructor
  · intro d hd
    simp [Config.resolve_server, hd]
  · intro hnone
    rcases find?_first_match (fun server => server.host == id)
        (c.servers.map Prod.snd) with ⟨hfind, hall⟩ | ⟨pre, a, post, hsplit, hpa, hfind, hpre⟩
    · have hres : c.resolve_server id = none := by
        simp [Config.resolve_server, hnone, hfind]
      rw [hres]
      intro b hb
      have := hall b hb
      simpa using this
    · have hres : c.resolve_server id = some a := by
        simp [Config.resolve_server, hnone, hfind]
      rw [hres]
      refine ⟨pre, post, hsplit, by simpa using hpa, ?_⟩
      intro b hb
      have := hpre b hb
      simpa using this

/-- Concrete instance of resolve_server_correct: exact-name lookup wins in
a one-entry registry. -/
theorem resolve_server_correct_witness :
    (Config.resolve_server
      { client := { default_server := none, deployment_timeout := 300,
                    concurrent_operations := 4, auto_backup := true }
        server := { name := "mac", monitoring_interval := 30, temp_threshold := 80,
                    battery_warning_level := 20, auto_restart_services := true,
                    log_level := "info", services := [] }
        servers := [("mac1",
          { name := "mac1", host := "10.0.0.5", user := "ops", port := 22,
            ssh_key := none, tags := [], enabled := true, last_seen := none })]
        ssh := { connect_timeout := 30, command_timeout := 60, key_path := none,
                 known_hosts_file := none, compression := true, keep_alive := true } }
      "mac1") = some
      { name := "mac1", host := "10.0.0.5", user := "ops", port := 22,
        ssh_key := none, tags := [], enabled := true, last_seen := none } :=
  (resolve_server_correct _ "mac1").1 _ rfl

/-- C6: planning in scripts-only mode yields exactly one deployment item,
the category scripts, with the four fixed pairs in order; the plan is a
value of the three mode flags alone, computed without any filesystem or
network environment, so it is deterministic by construction. -/
theorem determine_deployment_items_scripts_only :
    determine_deployment_items false true false =
      .ok [("scripts",
        [("scripts/temp", "~/scripts/temp"),
         ("scripts/battery", "~/scripts/battery"),
         ("scripts/power_diagnostics", "~/scripts/power_diagnostics"),
         ("scripts/setup_aliases.sh", "~/scripts/setup_aliases.sh")])] := rfl

/-- C4: the timed entry point returns exactly what execute_command
returns for every command and every timeout value; the timeout argument
has no observable effect. -/
theorem execute_command_with_timeout_eq (env : ExecEnv) (command : String)
    (timeout_secs : Nat) :
    execute_command_with_timeout env command timeout_secs =
      execute_command env command := rfl

/-- C9: when every transport step completes, execute_command returns a
CommandResult carrying the captured stdout and stderr, the remote exit
status, and success exactly when that status is zero — a non-zero exit is
never an error; and an error is returned only when one of the transport
steps failed with that error. -/
theorem execute_command_spec (env : ExecEnv) (command : String) :
    (∀ out err code, env.channelSession = .ok () → env.exec command = .ok () →
      env.readStdout = .ok out → env.readStderr = .ok err →
      env.waitClose = .ok () → env.exitStatus = .ok code →
      ∃ r, execute_command env command = .ok r ∧ r.stdout = out ∧
        r.stderr = err ∧ r.exit_code = code ∧ (r.success = true ↔ code = 0)) ∧
    (∀ e, execute_command env command = .error e →
      env.channelSession = .error e ∨ env.exec command = .error e ∨
      env.readStdout = .error e ∨ env.readStderr = .error e ∨
      env.waitClose = .error e ∨ env.exitStatus = .error e) := by
  constructor
  · intro out err code h1 h2 h3 h4 h5 h6
    refine ⟨{ stdout := out, stderr := err, exit_code := code,
              success := code == 0 }, ?_, rfl, rfl, rfl, beq_iff_eq⟩
    simp [execute_command, h1, h2, h3, h4, h5, h6]
  · intro e h
    unfold execute_command at h
    rcases hc1 : env.channelSession with e1 | u <;> rw [hc1] at h
    · exact Or.inl (by cases h; rfl)
    rcases hc2 : env.exec command with e2 | u <;> rw [hc2] at h
    · exact Or.inr (Or.inl (by cases h; rfl))
    rcases hc3 : env.readStdout with e3 | out <;> rw [hc3] at h
    · exact Or.inr (Or.inr (Or.inl (by cases h; rfl)))
    rcases hc4 : env.readStderr with e4 | err <;> rw [hc4] at h
    · exact Or.inr (Or.inr (Or.inr (Or.inl (by cases h; rfl))))
    rcases hc5 : env.waitClose with e5 | u <;> rw [hc5] at h
    · exact Or.inr (Or.inr (Or.inr (Or.inr (Or.inl (by cases h; rfl)))))
    rcases hc6 : env.exitStatus with e6 | code <;> rw [hc6] at h
    · exact Or.inr (Or.inr (Or.inr (Or.inr (Or.inr (by cases h; rfl)))))
    · exact absurd h (by simp)

/-- Concrete instance of execute_command_spec: a remote exit status of 3
yields an ok CommandResult with success false, not an error. -/
theorem execute_command_spec_witness :
    ∃ r, execute_command execEnvNonzero "exit 3" = .ok r ∧ r.stdout = "out" ∧
      r.stderr = "boom" ∧ r.exit_code = 3 ∧ (r.success = true ↔ (3 : Int) = 0) :=
  (execute_command_spec execEnvNonzero "exit 3").1 "out" "boom" 3
    rfl rfl rfl rfl rfl rfl

/-- C5 as written is false: on a transport error the existence predicates
return ok false instead of propagating the error.  At this concrete
always-failing transport both predicates report "does not exist". -/
theorem file_exists_counterexample :
    file_exists failingRunner "~/server_setup.sh" = .ok false ∧
    directory_exists failingRunner "~/docs" = .ok false :=
  ⟨rfl, rfl⟩

/-- C5 amended: file_exists and directory_exists derive their boolean
solely from the success field of the CommandResult of the remote shell
predicate, but a transport error while issuing that predicate is
swallowed and reported as ok false, never propagated to the caller. -/
theorem file_exists_spec (rn : CmdRunner) (remote_path : String) :
    (∀ r, rn.run ("test -f " ++ remote_path) = .ok r →
      file_exists rn remote_path = .ok r.success) ∧
    (∀ e, rn.run ("test -f " ++ remote_path) = .error e →
      file_exists rn remote_path = .ok false) ∧
    (∀ r, rn.run ("test -d " ++ remote_path) = .ok r →
      directory_exists rn remote_path = .ok r.success) ∧
    (∀ e, rn.run ("test -d " ++ remote_path) = .error e →
      directory_exists rn remote_path = .ok false) := by
  refine ⟨?_, ?_, ?_, ?_⟩
  · intro r h; simp [file_exists, h]
  · intro e h; simp [file_exists, h]
  · intro r h; simp [directory_exists, h]
  · intro e h; simp [directory_exists, h]

/-- Concrete instance of file_exists_spec: a completed test -f with a
non-zero exit maps to ok false through the success field. -/
theorem file_exists_spec_witness :
    file_exists exitOneRunner "~/scripts/temp" = .ok false :=
  (file_exists_spec exitOneRunner "~/scripts/temp").1
    { stdout := "", stderr := "", exit_code := 1, success := false } rfl

/-- C2 as written is false in its final clause: when agent authentication
itself fails, connect fails with the agent-authentication context message,
which is not the authentication-failed message naming the user and host.
Shown at a concrete environment with no configured key and a dead agent. -/
theorem connect_auth_counterexample :
    connectAuth srvA baseSsh agentFailEnv =
      .error "SSH agent authentication failed" ∧
    "SSH agent authentication failed" ≠
      "Authentication failed for user " ++ srvA.user ++ " on " ++ srvA.host :=
  ⟨rfl, by decide⟩

/-- C2 amended: authentication keeps the fixed fallback order and stops at
the first success; the key path is the per-target one if set, else the
global default, attempted only when the expanded path exists on disk, a
configured-but-missing key file being silently skipped in favour of the
agent phase; a failing key call propagates as a key error, a failing agent
call as an agent error, and only when both attempts complete without
error yet leave the session unauthenticated does connect fail with the
authentication-failed error naming the user and host. -/
theorem connect_auth_spec (server : ServerDefinition) (ssh : SshConfig)
    (env : AuthEnv) :
    (server.ssh_key.or ssh.key_path = none →
      connectAuth server ssh env = agentPhase server env) ∧
    (∀ kp, server.ssh_key.or ssh.key_path = some kp →
      env.fileExists (env.expand kp) = false →
      connectAuth server ssh env = agentPhase server env) ∧
    (∀ kp, server.ssh_key.or ssh.key_path = some kp →
      env.fileExists (env.expand kp) = true →
      ((env.pubkeyAuth server.user (env.expand kp) = .ok true →
          connectAuth server ssh env = .ok ()) ∧
       (env.pubkeyAuth server.user (env.expand kp) = .ok false →
          connectAuth server ssh env = agentPhase server env) ∧
       (∀ e, env.pubkeyAuth server.user (env.expand kp) = .error e →
          connectAuth server ssh env = .error "SSH key authentication failed"))) ∧
    (∀ e, env.agentAuth server.user = .error e →
      agentPhase server env = .error "SSH agent authentication failed") ∧
    (env.agentAuth server.user = .ok true → agentPhase server env = .ok ()) ∧
    (env.agentAuth server.user = .ok false →
      agentPhase server env =
        .error ("Authentication failed for user " ++ server.user ++ " on " ++
          server.host)) := by
  refine ⟨?_, ?_, ?_, ?_, ?_, ?_⟩
  · intro h
    simp [connectAuth, h, agentPhase]
  · intro kp hkp hmiss
    simp [connectAuth, hkp, hmiss, agentPhase]
  · intro kp hkp hfound
    refine ⟨?_, ?_, ?_⟩
    · intro h
      simp [connectAuth, hkp, hfound, h]
    · intro h
      simp [connectAuth, hkp, hfound, h, agentPhase]
    · intro e h
      simp [connectAuth, hkp, hfound, h]
  · intro e h
    simp [agentPhase, h]
  · intro h
    simp [agentPhase, h]
  · intro h
    simp [agentPhase, h]

/-- Concrete instance of connect_auth_spec: a configured per-target key
path that is absent on disk is skipped without error and the session
falls through to a successful agent authentication. -/
theorem connect_auth_spec_witness :
    connectAuth srvWithKey baseSsh agentOkEnv = .ok () :=
  ((connect_auth_spec srvWithKey baseSsh agentOkEnv).2.1
      "~/.ssh/id_ed25519" rfl rfl).trans
    ((connect_auth_spec srvWithKey baseSsh agentOkEnv).2.2.2.2.1 rfl)

/-- Skip-and-continue behaviour of the deploy_scripts loop under a
non-failing transport: the loop never aborts, warns once per missing
local source and copies every present one. -/
theorem deployScriptsLoop_ok (env : RemoteEnv) (fs : String → Option FileKind)
    (hcopy : ∀ l r, env.copyFile l r = .ok ())
    (hexec : ∀ cmd, ∃ res, env.execCmd cmd = .ok res) :
    ∀ files, ∃ tr, deployScriptsLoop env fs files = .ok tr ∧
      (∀ p ∈ files, (fs p.1).isNone →
        DeployEvent.warned ("Local file not found: " ++ p.1) ∈ tr) ∧
      (∀ p ∈ files, (fs p.1).isSome → DeployEvent.copiedFile p.1 p.2 ∈ tr) := by
  intro files
  induction files with
  | nil => exact ⟨[], rfl, by simp, by simp⟩
  | cons x rest ih =>
    obtain ⟨l, r⟩ := x
    obtain ⟨tr, htr, hw, hc⟩ := ih
    by_cases hfs : (fs l).isNone
    · refine ⟨.warned ("Local file not found: " ++ l) :: tr, ?_, ?_, ?_⟩
      · simp [deployScriptsLoop, hfs, htr]
      · intro p hp hnone
        rcases List.mem_cons.mp hp with rfl | hp'
        · exact List.mem_cons_self _ _
        · exact List.mem_cons_of_mem _ (hw p hp' hnone)
      · intro p hp hsome
        rcases List.mem_cons.mp hp with rfl | hp'
        · exfalso
          rw [Option.isNone_iff_eq_none] at hfs
          simp [hfs] at hsome
        · exact List.mem_cons_of_mem _ (hc p hp' hsome)
    · have hcf := hcopy l r
      by_cases hname : fileNameOf l ≠ "setup_aliases.sh"
      · obtain ⟨res, hres⟩ := hexec ("chmod +x " ++ r)
        refine ⟨.copiedFile l r :: .ran ("chmod +x " ++ r) :: tr, ?_, ?_, ?_⟩
        · simp [deployScriptsLoop, hfs, hcf, hname, hres, htr]
        · intro p hp hnone
          rcases List.mem_cons.mp hp with rfl | hp'
          · exact absurd hnone hfs
          · exact List.mem_cons_of_mem _ (List.mem_cons_of_mem _ (hw p hp' hnone))
        · intro p hp hsome
          rcases List.mem_cons.mp hp with rfl | hp'
          · exact List.mem_cons_self _ _
          · exact List.mem_cons_of_mem _ (List.mem_cons_of_mem _ (hc p hp' hsome))
      · push_neg at hname
        refine ⟨.copiedFile l r :: tr, ?_, ?_, ?_⟩
        · simp [deployScriptsLoop, hfs, hcf, hname, htr]
        · intro p hp hnone
          rcases List.mem_cons.mp hp with rfl | hp'
          · exact absurd hnone hfs
          · exact List.mem_cons_of_mem _ (hw p hp' hnone)
        · intro p hp hsome
          rcases List.mem_cons.mp hp with rfl | hp'
          · exact List.mem_cons_self _ _
          · exact List.mem_cons_of_mem _ (hc p hp' hsome)

/-- Skip-and-continue behaviour of deploy_configs under a non-failing
transport. -/
theorem deploy_configs_ok (env : RemoteEnv) (fs : String → Option FileKind)
    (hcopy : ∀ l r, env.copyFile l r = .ok ())
    (hexec : ∀ cmd, ∃ res, env.execCmd cmd = .ok res) :
    ∀ files, ∃ tr, deploy_configs env fs files = .ok tr ∧
      (∀ p ∈ files, (fs p.1).isNone →
        DeployEvent.warned ("Local file not found: " ++ p.1) ∈ tr) ∧
      (∀ p ∈ files, (fs p.1).isSome → DeployEvent.copiedFile p.1 p.2 ∈ tr) := by
  intro files
  induction files with
  | nil => exact ⟨[], rfl, by simp, by simp⟩
  | cons x rest ih =>
    obtain ⟨l, r⟩ := x
    obtain ⟨tr, htr, hw, hc⟩ := ih
    by_cases hfs : (fs l).isNone
    · refine ⟨.warned ("Local file not found: " ++ l) :: tr, ?_, ?_, ?_⟩
      · simp [deploy_configs, hfs, htr]
      · intro p hp hnone
        rcases List.mem_cons.mp hp with rfl | hp'
        · exact List.mem_cons_self _ _
        · exact List.mem_cons_of_mem _ (hw p hp' hnone)
      · intro p hp hsome
        rcases List.mem_cons.mp hp with rfl | hp'
        · exfalso
          rw [Option.isNone_iff_eq_none] at hfs
          simp [hfs] at hsome
        · exact List.mem_cons_of_mem _ (hc p hp' hsome)
    · have hcf := hcopy l r
      rcases hpar : parentDirOf r with _ | parent
      · refine ⟨.copiedFile l r :: tr, ?_, ?_, ?_⟩
        · simp [deploy_configs, hfs, hpar, hcf, htr]
        · intro p hp hnone
          rcases List.mem_cons.mp hp with rfl | hp'
          · exact absurd hnone hfs
          · exact List.mem_cons_of_mem _ (hw p hp' hnone)
        · intro p hp hsome
          rcases List.mem_cons.mp hp with rfl | hp'
          · exact List.mem_cons_self _ _
          · exact List.mem_cons_of_mem _ (hc p hp' hsome)
      · obtain ⟨res, hres⟩ := hexec ("mkdir -p " ++ parent)
        refine ⟨.ran ("mkdir -p " ++ parent) :: .copiedFile l r :: tr, ?_, ?_, ?_⟩
        · simp [deploy_configs, hfs, hpar, hres, hcf, htr]
        · intro p hp hnone
          rcases List.mem_cons.mp hp with rfl | hp'
          · exact absurd hnone hfs
          · exact List.mem_cons_of_mem _ (List.mem_cons_of_mem _ (hw p hp' hnone))
        · intro p hp hsome
          rcases List.mem_cons.mp hp with rfl | hp'
          · exact List.mem_cons_of_mem _ (List.mem_cons_self _ _)
          · exact List.mem_cons_of_mem _ (List.mem_cons_of_mem _ (hc p hp' hsome))

/-- Skip-and-continue behaviour of deploy_services under a non-failing
transport. -/
theorem deploy_services_ok (env : RemoteEnv) (fs : String → Option FileKind)
    (hcopy : ∀ l r, env.copyFile l r = .ok ())
    (hdir : ∀ l r, env.copyDir l r = .ok ()) :
    ∀ files, ∃ tr, deploy_services env fs files = .ok tr ∧
      (∀ p ∈ files, (fs p.1).isNone →
        DeployEvent.warned ("Local path not found: " ++ p.1) ∈ tr) ∧
      (∀ p ∈ files, (fs p.1).isSome →
        DeployEvent.copiedFile p.1 p.2 ∈ tr ∨ DeployEvent.copiedDir p.1 p.2 ∈ tr) := by
  intro files
  induction files with
  | nil => exact ⟨[], rfl, by simp, by simp⟩
  | cons x rest ih =>
    obtain ⟨l, r⟩ := x
    obtain ⟨tr, htr, hw, hc⟩ := ih
    by_cases hfs : (fs l).isNone
    · refine ⟨.warned ("Local path not found: " ++ l) :: tr, ?_, ?_, ?_⟩
      · simp [deploy_services, hfs, htr]
      · intro p hp hnone
        rcases List.mem_cons.mp hp with rfl | hp'
        · exact List.mem_cons_self _ _
        · exact List.mem_cons_of_mem _ (hw p hp' hnone)
      · intro p hp hsome
        rcases List.mem_cons.mp hp with rfl | hp'
        · exfalso
          rw [Option.isNone_iff_eq_none] at hfs
          simp [hfs] at hsome
        · rcases hc p hp' hsome with h | h
          · exact Or.inl (List.mem_cons_of_mem _ h)
          · exact Or.inr (List.mem_cons_of_mem _ h)
    · by_cases hkind : fs l = some FileKind.dir
      · have hcd := hdir l r
        refine ⟨.copiedDir l r :: tr, ?_, ?_, ?_⟩
        · simp [deploy_services, hfs, hkind, hcd, htr]
        · intro p hp hnone
          rcases List.mem_cons.mp hp with rfl | hp'
          · exact absurd hnone hfs
          · exact List.mem_cons_of_mem _ (hw p hp' hnone)
        · intro p hp hsome
          rcases List.mem_cons.mp hp with rfl | hp'
          · exact Or.inr (List.mem_cons_self _ _)
          · rcases hc p hp' hsome with h | h
            · exact Or.inl (List.mem_cons_of_mem _ h)
            · exact Or.inr (List.mem_cons_of_mem _ h)
      · have hcf := hcopy l r
        refine ⟨.copiedFile l r :: tr, ?_, ?_, ?_⟩
        · simp [deploy_services, hfs, hkind, hcf, htr]
        · intro p hp hnone
          rcases List.mem_cons.mp hp with rfl | hp'
          · exact absurd hnone hfs
          · exact List.mem_cons_of_mem _ (hw p hp' hnone)
        · intro p hp hsome
          rcases List.mem_cons.mp hp with rfl | hp'
          · exact Or.inl (List.mem_cons_self _ _)
          · rcases hc p hp' hsome with h | h
            · exact Or.inl (List.mem_cons_of_mem _ h)
            · exact Or.inr (List.mem_cons_of_mem _ h)

/-- C3 as written is false: the all/default plan aborts as soon as the
server-setup category finds server_setup.sh absent locally, even under a
fully healthy transport, so a run can abort solely because one local
source asset is missing. -/
theorem deploy_missing_local_counterexample :
    determine_deployment_items true false false = .ok allModeItems ∧
    run_deployment okRemoteEnv fsAllButServerSetup allModeItems =
      .error "server_setup.sh not found in current directory" :=
  ⟨rfl, rfl⟩

/-- C3 amended: under a non-failing transport the scripts, configs and
services categories report a warning for every plan item whose local
source is absent and transfer every present one, never aborting; the
server-setup category instead aborts the run with an error when its
local source server_setup.sh is absent. -/
theorem deploy_missing_local_spec (env : RemoteEnv)
    (fs : String → Option FileKind) (files : List (String × String))
    (hcopy : ∀ l r, env.copyFile l r = .ok ())
    (hdir : ∀ l r, env.copyDir l r = .ok ())
    (hexec : ∀ cmd, ∃ res, env.execCmd cmd = .ok res) :
    (∃ tr, deploy_scripts env fs files = .ok tr ∧
      (∀ p ∈ files, (fs p.1).isNone →
        DeployEvent.warned ("Local file not found: " ++ p.1) ∈ tr) ∧
      (∀ p ∈ files, (fs p.1).isSome → DeployEvent.copiedFile p.1 p.2 ∈ tr)) ∧
    (∃ tr, deploy_configs env fs files = .ok tr ∧
      (∀ p ∈ files, (fs p.1).isNone →
        DeployEvent.warned ("Local file not found: " ++ p.1) ∈ tr) ∧
      (∀ p ∈ files, (fs p.1).isSome → DeployEvent.copiedFile p.1 p.2 ∈ tr)) ∧
    (∃ tr, deploy_services env fs files = .ok tr ∧
      (∀ p ∈ files, (fs p.1).isNone →
        DeployEvent.warned ("Local path not found: " ++ p.1) ∈ tr) ∧
      (∀ p ∈ files, (fs p.1).isSome →
        DeployEvent.copiedFile p.1 p.2 ∈ tr ∨ DeployEvent.copiedDir p.1 p.2 ∈ tr)) ∧
    ((fs "server_setup.sh").isNone →
      deploy_server_setup env fs =
        .error "server_setup.sh not found in current directory") := by
  refine ⟨?_, deploy_configs_ok env fs hcopy hexec files,
    deploy_services_ok env fs hcopy hdir files, ?_⟩
  · obtain ⟨res0, hres0⟩ := hexec "mkdir -p ~/scripts"
    obtain ⟨tr, htr, hw, hc⟩ := deployScriptsLoop_ok env fs hcopy hexec files
    refine ⟨.ran "mkdir -p ~/scripts" :: tr, ?_, ?_, ?_⟩
    · simp [deploy_scripts, hres0, htr]
    · intro p hp hnone
      exact List.mem_cons_of_mem _ (hw p hp hnone)
    · intro p hp hsome
      exact List.mem_cons_of_mem _ (hc p hp hsome)
  · intro hmiss
    simp [deploy_server_setup, hmiss]

/-- Concrete instance of deploy_missing_local_spec: with every script
source present except server_setup.sh and a healthy transport, the
server-setup category alone fails. -/
theorem deploy_missing_local_spec_witness :
    deploy_server_setup okRemoteEnv fsAllButServerSetup =
      .error "server_setup.sh not found in current directory" :=
  (deploy_missing_local_spec okRemoteEnv fsAllButServerSetup []
    (fun _ _ => rfl) (fun _ _ => rfl)
    (fun _ => ⟨{ stdout := "", stderr := "", exit_code := 0, success := true },
      rfl⟩)).2.2.2 rfl

/-- A key present in a map stays present after appending entries. -/
theorem containsKey_append_left (l1 l2 : List (String × ServerDefinition))
    (k : String) (h : containsKey l1 k = true) :
    containsKey (l1 ++ l2) k = true := by
  induction l1 with
  | nil => simp [containsKey, serversGet] at h
  | cons x xs ih =>
    by_cases hx : (x.1 == k) = true
    · simp [containsKey, serversGet, List.find?, hx]
    · have hx' : (x.1 == k) = false := by
        cases hc : x.1 == k
        · rfl
        · exact absurd hc hx
      simp only [containsKey, serversGet, List.cons_append, List.find?, hx'] at h ⊢
      exact ih h

/-- C7 as written is false in its round-trip clause: add_server performs
no field validation, so a registry built exclusively through add can still
be rejected by validate.  Starting from the default configuration, adding
a definition with an empty host succeeds, yet validate then fails. -/
theorem validate_roundtrip_counterexample :
    Config.add_server cfgBase badHostServer =
      .ok { cfgBase with servers := [("alpha", badHostServer)] } ∧
    Config.validate { cfgBase with servers := [("alpha", badHostServer)] } =
      .error "Server \x27alpha\x27 has empty host" :=
  ⟨rfl, rfl⟩

/-- C7 amended: validate succeeds exactly when every entry matches its
key and has nonempty host and user and an in-range port, every
default-target reference names an existing key, and the temperature
threshold and battery warning level lie in their sane ranges; it is
preserved by add_server provided the added definition itself has nonempty
host and user and an in-range port, and by remove_server always. -/
theorem validate_spec :
    (∀ c : Config, c.validate = .ok () ↔
      ((∀ p ∈ c.servers, serverEntryOK p) ∧
       (∀ d, c.client.default_server = some d → containsKey c.servers d = true) ∧
       0 ≤ c.server.temp_threshold ∧ c.server.temp_threshold ≤ 150 ∧
       c.server.battery_warning_level ≤ 100)) ∧
    (∀ (c : Config) (s : ServerDefinition) (c2 : Config),
      c.validate = .ok () → s.host ≠ "" → s.user ≠ "" →
      s.port ≠ 0 → s.port ≤ 65535 → c.add_server s = .ok c2 →
      c2.validate = .ok ()) ∧
    (∀ (c : Config) (n : String) (r : Except String Unit) (c2 : Config),
      c.validate = .ok () → c.remove_server n = (r, c2) →
      c2.validate = .ok ()) := by
  refine ⟨validate_ok_iff, ?_, ?_⟩
  · intro c s c2 hok hh hu hp0 hp1 hadd
    obtain ⟨hs, hdef, ht0, ht1, hb⟩ := (validate_ok_iff c).mp hok
    unfold Config.add_server at hadd
    by_cases hct : containsKey c.servers s.name = true
    · rw [if_pos hct] at hadd
      exact absurd hadd (by simp)
    · rw [if_neg hct] at hadd
      obtain rfl := (Except.ok.inj hadd).symm
      refine (validate_ok_iff _).mpr ⟨?_, ?_, ht0, ht1, hb⟩
      · intro p hp
        rcases List.mem_append.mp hp with hp' | hp'
        · exact hs p hp'
        · obtain rfl := List.mem_singleton.mp hp'
          exact ⟨rfl, hh, hu, hp0, hp1⟩
      · intro d hd
        exact containsKey_append_left _ _ d (hdef d hd)
  · intro c n r c2 hok hrem
    obtain ⟨hs, hdef, ht0, ht1, hb⟩ := (validate_ok_iff c).mp hok
    unfold Config.remove_server at hrem
    by_cases hct : containsKey c.servers n = true
    · rw [if_pos hct] at hrem
      dsimp only at hrem
      by_cases hd : (c.client.default_server == some n) = true
      · rw [if_pos hd] at hrem
        obtain rfl := (Prod.mk.injEq _ _ _ _).mp hrem |>.2.symm
        refine (validate_ok_iff _).mpr ⟨?_, ?_, ht0, ht1, hb⟩
        · intro p hp
          exact hs p (List.mem_of_mem_filter hp)
        · intro d hdd
          exact absurd hdd (by simp)
      · rw [if_neg hd] at hrem
        obtain rfl := (Prod.mk.injEq _ _ _ _).mp hrem |>.2.symm
        refine (validate_ok_iff _).mpr ⟨?_, ?_, ht0, ht1, hb⟩
        · intro p hp
          exact hs p (List.mem_of_mem_filter hp)
        · intro d hdd
          have hdn : d ≠ n := by
            intro heq
            subst heq
            exact hd (beq_iff_eq.mpr hdd)
          have hck := hdef d hdd
          rw [containsKey, serversGet_filter_ne c.servers n d hdn]
          exact hck
    · rw [if_neg hct] at hrem
      obtain rfl := (Prod.mk.injEq _ _ _ _).mp hrem |>.2.symm
      exact hok

/-- Concrete instance of validate_spec: a well-formed definition added to
the default configuration leaves validate succeeding. -/
theorem validate_spec_witness :
    Config.validate { cfgBase with servers := [("a", srvA)] } = .ok () :=
  validate_spec.2.1 cfgBase srvA _ rfl (by decide) (by decide) (by decide)
    (by decide) rfl

/-- Concrete instance of remove_server_spec: removing the name that the
default-target reference holds succeeds and clears that reference. -/
theorem remove_server_spec_witness :
    (Config.remove_server cfgAB "a").1 = .ok () ∧
    (Config.remove_server cfgAB "a").2.client.default_server = none := by
  obtain ⟨c2, he, -, -, -, hdef, -, -, -, -, -⟩ :=
    (remove_server_spec cfgAB "a").2 rfl
  rw [he]
  refine ⟨rfl, ?_⟩
  rw [hdef, if_pos (show cfgAB.client.default_server = some "a" from rfl)]

/-- Concrete instance of get_default_server_spec: a dangling
default-target reference yields none at lookup time while validate
rejects the same configuration. -/
theorem get_default_server_spec_witness :
    Config.get_default_server cfgDangling = none ∧
    Config.validate cfgDangling ≠ .ok () :=
  (get_default_server_spec cfgDangling).2.1 "ghost" rfl rfl

end Plan10
